import Mathlib

/-!
Shallow embedding of the storage and search layer of `context-mcp`
(`src/storage/store.ts`, `src/storage/schema.ts`, `src/summariser/summariser.ts`,
`src/tools/get-context.ts`), together with theorems settling the frozen claims.

The SQLite database is modelled as in-memory lists of rows.  The inline
`tags` column of `log_entries` always holds `JSON.stringify` of a string
array (or NULL), so it is modelled by its decoded value `Option (List String)`;
`encodeTags` below reproduces the stored text where the SQL consults the raw
column (the `tags LIKE '%"t"%'` conditions of the count query and the
`tags != '[]'` condition of the migration query).
-/

namespace ContextMcp

/-- A row of the `log_entries` table (`CREATE_ENTRIES_TABLE` in schema.ts). -/
structure EntryRow where
  id : String
  projectId : String
  title : String
  content : String
  summary : Option String := none
  createdAt : String
  tags : Option (List String) := none
  agentId : Option String := none
deriving DecidableEq, Repr

/-- The persistent store: the `log_entries` table, the `entry_tags` table
(rows `(entry_id, tag)`), and whether the `entry_tags` table exists in the
database file (consulted by `migrateSchema` via `sqlite_master`). -/
structure DB where
  logEntries : List EntryRow
  entryTags : List (String × String)
  hasEntryTags : Bool := true
deriving DecidableEq, Repr

/-- `SearchParams` from types.ts.  Absent optional fields are `none`; the
JS code also treats the empty string (and `limit` 0) as absent, via
truthiness tests, which the search definitions reproduce. -/
structure SearchParams where
  projectId : String
  query : Option String := none
  tags : Option (List String) := none
  startDate : Option String := none
  endDate : Option String := none
  limit : Option Nat := none
deriving DecidableEq, Repr

/-- One element of `SearchResult.entries`.  The non-tag path of
`searchEntries` builds objects with only `id`, `projectId`, `title`,
`createdAt`, `tags`; the tag path returns full `LogEntry` objects, so
`content`/`summary`/`agentId` are `Option`-wrapped: `none` means the field
is absent from the returned object. -/
structure ResultEntry where
  id : String
  projectId : String
  title : String
  createdAt : String
  tags : List String
  content : Option String := none
  summary : Option (Option String) := none
  agentId : Option (Option String) := none
deriving DecidableEq, Repr

/-- `SearchResult` from types.ts. -/
structure SearchResult where
  entries : List ResultEntry
  total : Nat
deriving DecidableEq, Repr

/-- A `LogEntry` as returned by `ProgressStore.getEntry` (tags decoded from
the inline column). -/
structure LogEntryOut where
  id : String
  projectId : String
  title : String
  content : String
  summary : Option String
  createdAt : String
  tags : List String
  agentId : Option String
deriving DecidableEq, Repr

/-! ### Text ordering and SQL LIKE

SQLite compares TEXT with the BINARY collation (byte order); on the ASCII
timestamps and tags used here this is codepoint order.  `LIKE` is
case-insensitive on ASCII, with `%` and `_` wildcards. -/

/-- Byte-order comparison on characters lists (SQLite BINARY collation). -/
def listLe : List Char → List Char → Bool
  | [], _ => true
  | _ :: _, [] => false
  | a :: as, b :: bs => if a < b then true else if b < a then false else listLe as bs

/-- `a <= b` under SQLite's BINARY collation on TEXT. -/
def strLe (a b : String) : Bool := listLe a.data b.data

/-- SQLite `LIKE`, fuelled: `%` matches any run, `_` any one character,
letters match case-insensitively (ASCII folding, as SQLite does).
Every recursive call shrinks `pattern.length + s.length`, so the fuel used
by `likeMatch` below always suffices. -/
def likeMatchFuel : Nat → List Char → List Char → Bool
  | 0, _, _ => false
  | _ + 1, [], s => s.isEmpty
  | f + 1, '%' :: ps, s =>
      likeMatchFuel f ps s ||
        (match s with
          | [] => false
          | _ :: s2 => likeMatchFuel f ('%' :: ps) s2)
  | f + 1, '_' :: ps, s =>
      (match s with
        | [] => false
        | _ :: s2 => likeMatchFuel f ps s2)
  | f + 1, c :: ps, s =>
      (match s with
        | [] => false
        | d :: s2 => (c.toLower == d.toLower) && likeMatchFuel f ps s2)

/-- SQLite `expr LIKE pattern`. -/
def likeMatch (pattern s : String) : Bool :=
  likeMatchFuel (pattern.length + s.length + 1) pattern.data s.data

/-! ### The inline tags column (`JSON.stringify`) -/

/-- Two lowercase hex digits of a byte, as in `JSON.stringify`'s `\u00XX`. -/
def hexByte (n : Nat) : String :=
  let digit := fun k => if k < 10 then Char.ofNat (48 + k) else Char.ofNat (87 + k)
  String.mk [digit (n / 16 % 16), digit (n % 16)]

/-- JSON string escaping of one character, as `JSON.stringify` does. -/
def jsonEscapeChar (c : Char) : String :=
  if c = '"' then "\\\""
  else if c = '\\' then "\\\\"
  else if c = Char.ofNat 8 then "\\b"
  else if c = Char.ofNat 9 then "\\t"
  else if c = Char.ofNat 10 then "\\n"
  else if c = Char.ofNat 12 then "\\f"
  else if c = Char.ofNat 13 then "\\r"
  else if c.toNat < 32 then "\\u00" ++ hexByte c.toNat
  else String.singleton c

/-- `JSON.stringify` of a string. -/
def jsonString (s : String) : String :=
  "\"" ++ String.join (s.data.map jsonEscapeChar) ++ "\""

/-- `JSON.stringify` of a string array: the text stored in the inline
`tags` column by `createEntry`. -/
def encodeTags (tags : List String) : String :=
  "[" ++ String.intercalate "," (tags.map jsonString) ++ "]"

/-! ### Tag index reads (`getTags`, sorted ascending by `ORDER BY tag`) -/

/-- Stable ascending insertion (text order) used to model `ORDER BY tag`. -/
def insertAsc (t : String) : List String → List String
  | [] => [t]
  | x :: xs => if strLe x t then x :: insertAsc t xs else t :: x :: xs

/-- Ascending text sort. -/
def sortAsc (l : List String) : List String := l.foldr insertAsc []

/-- The raw tag rows of one entry, in table order. -/
def indexTags (db : DB) (entryId : String) : List String :=
  (db.entryTags.filter (fun pr => pr.1 == entryId)).map (fun pr => pr.2)

/-- `ProgressStore.getTags`: `SELECT tag FROM entry_tags WHERE entry_id = ?
ORDER BY tag`.  The catch block swallows any storage fault and returns the
empty list; `fault` injects such a fault for the given entry id. -/
def getTagsModel (db : DB) (fault : String → Bool) (entryId : String) : List String :=
  if fault entryId then [] else sortAsc (indexTags db entryId)

/-! ### Search (`searchEntries`, `searchByTags`) -/

/-- Stable descending insertion by `createdAt` (`ORDER BY created_at DESC`). -/
def insertDesc (r : EntryRow) : List EntryRow → List EntryRow
  | [] => [r]
  | x :: xs => if strLe r.createdAt x.createdAt then x :: insertDesc r xs else r :: x :: xs

/-- Descending sort by `createdAt`. -/
def sortDesc (l : List EntryRow) : List EntryRow := l.foldr insertDesc []

/-- The WHERE clause of the main (non-tag) query of `searchEntries`:
project scope, optional `LOWER(title) LIKE LOWER('%q%')`, optional
inclusive `created_at` bounds.  Empty strings are falsy in JS, hence no
filter. -/
def rowMatchesBase (params : SearchParams) (r : EntryRow) : Bool :=
  r.projectId == params.projectId &&
  (match params.query with
    | some q => if q = "" then true else likeMatch ("%" ++ q ++ "%") r.title
    | none => true) &&
  (match params.startDate with
    | some d => if d = "" then true else strLe d r.createdAt
    | none => true) &&
  (match params.endDate with
    | some d => if d = "" then true else strLe r.createdAt d
    | none => true)

/-- The extra `tags LIKE '%"t"%'` conjuncts of the count query (one per
requested tag, matched against the raw inline column; a NULL column never
matches). -/
def countTagCond (params : SearchParams) (r : EntryRow) : Bool :=
  match params.tags with
  | none => true
  | some l =>
      if l = [] then true
      else
        match r.tags with
        | none => false
        | some tl => l.all (fun t => likeMatch ("%\"" ++ t ++ "\"%") (encodeTags tl))

/-- `EXISTS (SELECT 1 FROM entry_tags WHERE entry_id = le.id AND tag = ?)`
for every requested tag. -/
def hasAllTags (db : DB) (tags : List String) (r : EntryRow) : Bool :=
  tags.all (fun t => db.entryTags.any (fun pr => pr.1 == r.id && pr.2 == t))

/-- The projection built by the non-tag path of `searchEntries`:
`{id, projectId, title, createdAt, tags: this.getTags(row.id)}`. -/
def projectionRow (db : DB) (fault : String → Bool) (r : EntryRow) : ResultEntry :=
  { id := r.id, projectId := r.projectId, title := r.title, createdAt := r.createdAt,
    tags := getTagsModel db fault r.id }

/-- The full `LogEntry` object built by `searchByTags` (`SELECT DISTINCT le.*`,
tags reconstituted through `getTags`). -/
def fullRow (db : DB) (fault : String → Bool) (r : EntryRow) : ResultEntry :=
  { id := r.id, projectId := r.projectId, title := r.title, createdAt := r.createdAt,
    tags := getTagsModel db fault r.id,
    content := some r.content, summary := some r.summary, agentId := some r.agentId }

/-- `ProgressStore.searchByTags`: entries of the project carrying all the
requested tags, newest first, as full `LogEntry` objects.  The store only
calls this with a non-empty tag list (with an empty list the generated SQL
would be malformed). -/
def searchByTags (db : DB) (fault : String → Bool) (projectId : String)
    (tags : List String) : List ResultEntry :=
  (sortDesc (db.logEntries.filter
      (fun r => r.projectId == projectId && hasAllTags db tags r))).map (fullRow db fault)

/-- Rows matched by the main query, sorted newest first. -/
def baseRows (db : DB) (params : SearchParams) : List EntryRow :=
  sortDesc (db.logEntries.filter (fun r => rowMatchesBase params r))

/-- The main query after `LIMIT ?` (only a truthy, i.e. nonzero, limit is
pushed). -/
def limitedRows (db : DB) (params : SearchParams) : List EntryRow :=
  match params.limit with
  | some n => if n = 0 then baseRows db params else (baseRows db params).take n
  | none => baseRows db params

/-- The count query of `searchEntries` (no LIMIT; tag conditions via
`tags LIKE '%"t"%'` on the inline column). -/
def countTotal (db : DB) (params : SearchParams) : Nat :=
  (db.logEntries.filter (fun r => rowMatchesBase params r && countTagCond params r)).length

/-- The requested tag list (`params.tags` with JS falsiness: absent = `[]`). -/
def tagListOf (params : SearchParams) : List String := params.tags.getD []

/-- `ProgressStore.searchEntries`.  When a non-empty tag filter is supplied
and `searchByTags` finds at least one entry, the method returns those full
entries early (no query/date filters, no limit, total = their count);
otherwise it runs the main query (which carries no tag conditions) plus
the separate count query. -/
def searchEntries (db : DB) (fault : String → Bool) (params : SearchParams) : SearchResult :=
  if tagListOf params ≠ [] ∧ searchByTags db fault params.projectId (tagListOf params) ≠ [] then
    { entries := searchByTags db fault params.projectId (tagListOf params),
      total := (searchByTags db fault params.projectId (tagListOf params)).length }
  else
    { entries := (limitedRows db params).map (projectionRow db fault),
      total := countTotal db params }

/-! ### Single-entry reads and the summary mutation -/

/-- The WHERE clause of `getEntry`. -/
def entryPred (projectId id : String) (r : EntryRow) : Bool :=
  r.projectId == projectId && r.id == id

/-- Row-to-`LogEntry` conversion performed by `getEntry`:
`tags: row.tags ? JSON.parse(row.tags) : []`. -/
def toLogEntry (r : EntryRow) : LogEntryOut :=
  { id := r.id, projectId := r.projectId, title := r.title, content := r.content,
    summary := r.summary, createdAt := r.createdAt, tags := r.tags.getD [],
    agentId := r.agentId }

/-- `ProgressStore.getEntry`: single-row lookup by (projectId, id); `none`
for absence. -/
def getEntry (db : DB) (projectId id : String) : Option LogEntryOut :=
  (db.logEntries.find? (entryPred projectId id)).map toLogEntry

/-- `ProgressStore.updateSummary`: `UPDATE log_entries SET summary = ?
WHERE id = ?` (keyed by id alone; ids are globally unique). -/
def updateSummary (db : DB) (id : String) (s : String) : DB :=
  { db with logEntries :=
      db.logEntries.map (fun r => if r.id == id then { r with summary := some s } else r) }

/-! ### Schema initialization and the tag migration -/

/-- `INSERT OR IGNORE INTO entry_tags (entry_id, tag) VALUES (?, ?)` for
each tag (`ProgressStore.addTags`). -/
def addTagsList (acc : List (String × String)) (entryId : String)
    (tags : List String) : List (String × String) :=
  tags.foldl
    (fun a t => if a.any (fun pr => pr.1 == entryId && pr.2 == t) then a else a ++ [(entryId, t)])
    acc

/-- `ProgressStore.initializeSchema`: executes the `CREATE TABLE IF NOT
EXISTS` statements, so afterwards the `entry_tags` table exists; rows are
untouched. -/
def initializeSchema (db : DB) : DB := { db with hasEntryTags := true }

/-- `ProgressStore.migrateSchema`: if `entry_tags` is absent from
`sqlite_master`, create it and backfill it from every entry whose inline
column is non-NULL and not the text `'[]'`; otherwise do nothing. -/
def migrateSchema (db : DB) : DB :=
  if db.hasEntryTags then db
  else
    let entriesWithTags := db.logEntries.filter
      (fun r => match r.tags with
        | none => false
        | some tl => !(encodeTags tl == "[]"))
    { db with
      hasEntryTags := true,
      entryTags :=
        entriesWithTags.foldl
          (fun acc r => match r.tags with
            | some tl => if tl.length > 0 then addTagsList acc r.id tl else acc
            | none => acc)
          db.entryTags }

/-- The `ProgressStore` constructor's schema phase: `initializeSchema()`
then `migrateSchema()`, in that order. -/
def storeStartup (db : DB) : DB := migrateSchema (initializeSchema db)

/-! ### Summariser and the get-context tool -/

/-- `SummariseResult` from summariser.ts. -/
structure SummariseResult where
  summary : String
  isFallback : Bool
deriving DecidableEq, Repr

/-- `FALLBACK_MAX_LENGTH` in summariser.ts. -/
def FALLBACK_MAX_LENGTH : Nat := 500

/-- `content.substring(0, n)`: the first `n` characters. -/
def substringTo (s : String) (n : Nat) : String := String.mk (s.data.take n)

/-- The fallback built in the catch block of `Summariser.summarise`:
`content.length > FALLBACK_MAX_LENGTH ? content.substring(0, FALLBACK_MAX_LENGTH) : content`. -/
def fallbackOf (content : String) : String :=
  if FALLBACK_MAX_LENGTH < content.length then substringTo content FALLBACK_MAX_LENGTH
  else content

/-- `Summariser.summarise`.  The external collaborator is abstracted as
`collab`: `none` for any thrown fault (timeout, transport, auth, rate
limit), `some s` for a response whose message content is `s` (the code
reads `response.choices[0]?.message?.content || ''` and throws on the
empty string, which its own catch turns into the fallback).  `title` only
feeds the external prompt and does not affect the result. -/
def summarise (title content : String) (collab : Option String) : SummariseResult :=
  match collab with
  | none => { summary := fallbackOf content, isFallback := true }
  | some s =>
      if s = "" then { summary := fallbackOf content, isFallback := true }
      else { summary := s, isFallback := false }

/-- The structured response of the get-context tool. -/
structure OkPayload where
  id : String
  projectId : String
  title : String
  summary : String
  createdAt : String
  tags : List String
  content : Option String
deriving DecidableEq, Repr

/-- One run of the get-context handler: `out = none` is the "entry not
found" error result, `db` the store afterwards, `calls` how many times the
collaborator was invoked. -/
structure GetContextRun where
  out : Option OkPayload
  db : DB
  calls : Nat
deriving DecidableEq, Repr

/-- The response object built by the get-context handler. -/
def mkPayload (entry : LogEntryOut) (s : String) (includeFull : Bool) : OkPayload :=
  { id := entry.id, projectId := entry.projectId, title := entry.title, summary := s,
    createdAt := entry.createdAt, tags := entry.tags,
    content := if includeFull then some entry.content else none }

/-- The get-context handler (`createGetContextTool` in get-context.ts):
fetch the entry; reuse a non-null summary as-is; otherwise call the
summariser once and persist the result via `updateSummary` only when it is
not a fallback. -/
def getContext (db : DB) (collab : Option String) (projectId id : String)
    (includeFull : Bool) : GetContextRun :=
  match getEntry db projectId id with
  | none => { out := none, db := db, calls := 0 }
  | some entry =>
      match entry.summary with
      | some s => { out := some (mkPayload entry s includeFull), db := db, calls := 0 }
      | none =>
          let r := summarise entry.title entry.content collab
          { out := some (mkPayload entry r.summary includeFull),
            db := if r.isFallback then db else updateSummary db entry.id r.summary,
            calls := 1 }

/-- A fault oracle injecting no storage faults. -/
def noFault : String → Bool := fun _ => false

/-! ### Concrete fixtures used by the evaluation theorems and witnesses -/

/-- A stored entry of project `p` tagged `auth`. -/
def e1row : EntryRow :=
  { id := "e1", projectId := "p", title := "alpha setup", content := "patched auth",
    createdAt := "2025-01-02T00:00:00Z", tags := some ["auth"] }

/-- A second stored entry of project `p` tagged `auth`, created later. -/
def e2row : EntryRow :=
  { id := "e2", projectId := "p", title := "beta work", content := "db work",
    createdAt := "2025-01-03T00:00:00Z", tags := some ["auth"] }

/-- A store holding just `e1row`, tag index in sync. -/
def db1 : DB := { logEntries := [e1row], entryTags := [("e1", "auth")] }

/-- A store holding `e1row` and `e2row`, tag index in sync. -/
def db3 : DB := { logEntries := [e1row, e2row], entryTags := [("e1", "auth"), ("e2", "auth")] }

/-! ### Helper lemmas -/

theorem mem_insertAsc (t a : String) (l : List String) :
    a ∈ insertAsc t l ↔ a = t ∨ a ∈ l := by
  induction l with
  | nil => simp [insertAsc]
  | cons x xs ih =>
      by_cases h : strLe x t = true
      · simp only [insertAsc, if_pos h, List.mem_cons, ih]
        tauto
      · simp only [insertAsc, if_neg h, List.mem_cons]

theorem mem_sortAsc (a : String) (l : List String) : a ∈ sortAsc l ↔ a ∈ l := by
  induction l with
  | nil => simp [sortAsc]
  | cons x xs ih =>
      simp only [sortAsc, List.foldr_cons] at *
      rw [mem_insertAsc, ih, List.mem_cons]

theorem find?_map_pred_inv {α : Type} (f : α → α) (q : α → Bool)
    (h : ∀ a, q (f a) = q a) : ∀ l : List α, (l.map f).find? q = (l.find? q).map f := by
  intro l
  induction l with
  | nil => rfl
  | cons a t ih =>
      simp only [List.map_cons, List.find?_cons, h a]
      cases q a <;> simp [ih]

/-! ## Claims -/

/-- C1.  The search special-cases tag queries: when a non-empty tag filter
matches at least one entry, `searchEntries` returns those entries without
applying the title query.  Here the store holds one entry titled
`"alpha setup"` tagged `auth`; a search with query `"login"` and tags
`["auth"]` returns that entry even though its title fails the very LIKE
test the main query would have applied, refuting the claim that every
returned entry satisfies all supplied filters. -/
theorem searchEntries_tagPath_ignores_query_at_input :
    (searchEntries db1 noFault
        { projectId := "p", query := some "login", tags := some ["auth"],
          limit := some 20 }).entries.map (fun e => e.title) = ["alpha setup"] ∧
    likeMatch ("%" ++ "login" ++ "%") "alpha setup" = false := by decide

/-- C2.  When no entry of the project carries all requested tags,
`searchEntries` falls through to the main query, which carries no tag
conditions: the store holds one entry tagged `auth` only, yet a search for
tags `["perf"]` returns that entry (while the separate count query reports
total 0), refuting "the search returns zero entries". -/
theorem searchEntries_emptyTagMatch_falls_through_at_input :
    hasAllTags db1 ["perf"] e1row = false ∧
    (searchEntries db1 noFault
        { projectId := "p", tags := some ["perf"], limit := some 20 }).entries.map
        (fun e => e.id) = ["e1"] ∧
    (searchEntries db1 noFault
        { projectId := "p", tags := some ["perf"], limit := some 20 }).total = 0 := by decide

/-- C3.  The tag path of `searchEntries` never applies `LIMIT`: with two
entries tagged `auth` and `limit = 1`, the search returns both entries,
refuting "the number of entries returned is at most L ... whether or not a
tag filter is supplied". -/
theorem searchEntries_tagPath_ignores_limit_at_input :
    (searchEntries db3 noFault
        { projectId := "p", tags := some ["auth"], limit := some 1 }).entries.length = 2 := by
  decide

/-- C4.  The constructor runs `initializeSchema` (whose
`CREATE TABLE IF NOT EXISTS entry_tags` creates the Tag Index) before
`migrateSchema` checks `sqlite_master` for that very table, so on a
pre-existing store the backfill is always skipped: startup leaves the Tag
Index empty although the entry's inline list is `["auth"]`, while
`migrateSchema` run on its own (as intended) would have backfilled the
corresponding row. -/
theorem startup_skips_tag_backfill_at_input :
    ({ logEntries := [e1row], entryTags := [], hasEntryTags := false } : DB).hasEntryTags
        = false ∧
    e1row.tags = some ["auth"] ∧
    (storeStartup
        { logEntries := [e1row], entryTags := [], hasEntryTags := false }).entryTags = [] ∧
    (migrateSchema
        { logEntries := [e1row], entryTags := [], hasEntryTags := false }).entryTags
        = [("e1", "auth")] := by decide

/-- C5.  The tag path of `searchEntries` returns the full `LogEntry`
objects produced by `searchByTags`: a tags-only search over `db1` returns
its entry with the `content` and `summary` fields present (`some _` in the
model), refuting "the content and summary fields are never included in
search results". -/
theorem searchEntries_tagPath_exposes_content_at_input :
    (searchEntries db1 noFault
        { projectId := "p", tags := some ["auth"], limit := some 20 }).entries.map
        (fun e => (e.content, e.summary)) = [(some "patched auth", some none)] := by decide

/-- Updating the summary of the entry found by `getEntry` changes that
entry's stored summary and nothing else the lookup can observe. -/
theorem getEntry_updateSummary (db : DB) (p id : String) (e : LogEntryOut) (s : String)
    (hget : getEntry db p id = some e) :
    getEntry (updateSummary db e.id s) p id = some { e with summary := some s } := by
  unfold getEntry at hget ⊢
  cases hfind : db.logEntries.find? (entryPred p id) with
  | none => rw [hfind] at hget; exact absurd hget (by simp)
  | some r =>
      rw [hfind] at hget
      have he : toLogEntry r = e := by simpa using hget
      subst he
      have hpres : ∀ a : EntryRow,
          entryPred p id
              (if a.id == (toLogEntry r).id then { a with summary := some s } else a)
            = entryPred p id a := by
        intro a
        by_cases h : a.id == (toLogEntry r).id
        · simp [entryPred, h]
        · simp [h]
      have hmap := find?_map_pred_inv
        (fun a => if a.id == (toLogEntry r).id then { a with summary := some s } else a)
        (entryPred p id) hpres db.logEntries
      simp only [updateSummary]
      rw [hmap, hfind]
      have hcond : (r.id == (toLogEntry r).id) = true := by
        show (r.id == r.id) = true
        simp
      simp [hcond, toLogEntry]

/-- C6.  A fetch-context call on an entry whose summary is null, made
while the collaborator fails (thrown fault `none`, or empty response
`some ""`), still succeeds: it returns the fallback summary, persists
nothing (the store is unchanged, so the stored summary stays null), and
any subsequent call under a failing collaborator invokes the collaborator
once more, again leaving the store unchanged. -/
theorem getContext_fallback_not_persisted
    (db : DB) (p id : String) (incl : Bool) (collab : Option String) (e : LogEntryOut)
    (hget : getEntry db p id = some e)
    (hnull : e.summary = none)
    (hfail : collab = none ∨ collab = some "") :
    (getContext db collab p id incl).out = some (mkPayload e (fallbackOf e.content) incl) ∧
    (getContext db collab p id incl).db = db ∧
    (getContext db collab p id incl).calls = 1 ∧
    (∀ (collab2 : Option String) (incl2 : Bool), collab2 = none ∨ collab2 = some "" →
        (getContext db collab2 p id incl2).calls = 1 ∧
        (getContext db collab2 p id incl2).db = db) := by
  have hrun : ∀ (c : Option String) (i : Bool), c = none ∨ c = some "" →
      getContext db c p id i =
        { out := some (mkPayload e (fallbackOf e.content) i), db := db, calls := 1 } := by
    intro c i hc
    have hsum : summarise e.title e.content c =
        { summary := fallbackOf e.content, isFallback := true } := by
      rcases hc with rfl | rfl
      · rfl
      · simp [summarise]
    simp [getContext, hget, hnull, hsum]
  refine ⟨?_, ?_, ?_, ?_⟩
  · rw [hrun collab incl hfail]
  · rw [hrun collab incl hfail]
  · rw [hrun collab incl hfail]
  · intro collab2 incl2 hfail2
    rw [hrun collab2 incl2 hfail2]
    exact ⟨rfl, rfl⟩

/-- Witness for C6 at `db1`: the entry `e1` has a null summary, a failing
collaborator yields a successful run that leaves the store unchanged and
would invoke the collaborator again on a second call. -/
theorem getContext_fallback_not_persisted_witness :
    (getEntry db1 "p" "e1" = some (toLogEntry e1row) ∧ (toLogEntry e1row).summary = none) ∧
    ((getContext db1 none "p" "e1" false).db = db1 ∧
      (getContext db1 none "p" "e1" false).calls = 1) :=
  ⟨⟨rfl, rfl⟩,
    ⟨(getContext_fallback_not_persisted db1 "p" "e1" false none (toLogEntry e1row)
        rfl rfl (Or.inl rfl)).2.1,
      (getContext_fallback_not_persisted db1 "p" "e1" false none (toLogEntry e1row)
        rfl rfl (Or.inl rfl)).2.2.1⟩⟩

/-- C7.  The first fetch-context call that finds a null summary and gets a
genuine (non-empty, non-fallback) collaborator result persists it via
`updateSummary`, and every later fetch-context call on that entry finds
the non-null summary, returns it as-is, and invokes the collaborator zero
times, leaving the store unchanged. -/
theorem getContext_caches_genuine_summary
    (db : DB) (p id : String) (incl : Bool) (s : String) (e : LogEntryOut)
    (hget : getEntry db p id = some e)
    (hnull : e.summary = none)
    (hs : s ≠ "") :
    (getContext db (some s) p id incl).calls = 1 ∧
    (getContext db (some s) p id incl).out = some (mkPayload e s incl) ∧
    (getContext db (some s) p id incl).db = updateSummary db e.id s ∧
    getEntry (updateSummary db e.id s) p id = some { e with summary := some s } ∧
    (∀ (collab2 : Option String) (incl2 : Bool),
        (getContext (updateSummary db e.id s) collab2 p id incl2).calls = 0 ∧
        (getContext (updateSummary db e.id s) collab2 p id incl2).out =
          some (mkPayload { e with summary := some s } s incl2) ∧
        (getContext (updateSummary db e.id s) collab2 p id incl2).db =
          updateSummary db e.id s) := by
  have hsum : summarise e.title e.content (some s) = { summary := s, isFallback := false } := by
    simp [summarise, hs]
  have hget2 := getEntry_updateSummary db p id e s hget
  refine ⟨?_, ?_, ?_, hget2, ?_⟩
  · simp [getContext, hget, hnull, hsum]
  · simp [getContext, hget, hnull, hsum]
  · simp [getContext, hget, hnull, hsum]
  · intro collab2 incl2
    refine ⟨?_, ?_, ?_⟩ <;> simp [getContext, hget2]

/-- Witness for C7 at `db1`: a genuine result `"fresh summary"` is
persisted by the first call and served from the store, with zero
collaborator invocations, on the second. -/
theorem getContext_caches_genuine_summary_witness :
    (getEntry db1 "p" "e1" = some (toLogEntry e1row) ∧ (toLogEntry e1row).summary = none ∧
        "fresh summary" ≠ "") ∧
    ((getContext db1 (some "fresh summary") "p" "e1" false).db =
        updateSummary db1 (toLogEntry e1row).id "fresh summary" ∧
      (∀ (collab2 : Option String) (incl2 : Bool),
        (getContext (updateSummary db1 (toLogEntry e1row).id "fresh summary")
            collab2 "p" "e1" incl2).calls = 0)) :=
  ⟨⟨rfl, rfl, by decide⟩,
    ⟨(getContext_caches_genuine_summary db1 "p" "e1" false "fresh summary" (toLogEntry e1row)
        rfl rfl (by decide)).2.2.1,
      fun collab2 incl2 =>
        ((getContext_caches_genuine_summary db1 "p" "e1" false "fresh summary"
            (toLogEntry e1row) rfl rfl (by decide)).2.2.2.2 collab2 incl2).1⟩⟩

/-- C8.  Under a failing collaborator the fetch-context call returns the
fallback: for content longer than `FALLBACK_MAX_LENGTH` (500) the fallback
is exactly the first 500 characters (no ellipsis marker), so its length is
exactly 500; content of length at most 500 is returned unmodified. -/
theorem getContext_fallback_truncation
    (db : DB) (p id : String) (incl : Bool) (collab : Option String) (e : LogEntryOut)
    (hget : getEntry db p id = some e)
    (hnull : e.summary = none)
    (hfail : collab = none ∨ collab = some "") :
    (getContext db collab p id incl).out = some (mkPayload e (fallbackOf e.content) incl) ∧
    (FALLBACK_MAX_LENGTH < e.content.length →
        (fallbackOf e.content).length = FALLBACK_MAX_LENGTH ∧
        fallbackOf e.content = substringTo e.content FALLBACK_MAX_LENGTH) ∧
    (e.content.length ≤ FALLBACK_MAX_LENGTH → fallbackOf e.content = e.content) := by
  refine ⟨(getContext_fallback_not_persisted db p id incl collab e hget hnull hfail).1,
    ?_, ?_⟩
  · intro hlong
    refine ⟨?_, by rw [fallbackOf, if_pos hlong]⟩
    rw [fallbackOf, if_pos hlong]
    show (e.content.data.take FALLBACK_MAX_LENGTH).length = FALLBACK_MAX_LENGTH
    rw [List.length_take]
    exact Nat.min_eq_left (Nat.le_of_lt hlong)
  · intro hshort
    rw [fallbackOf, if_neg (Nat.not_lt.mpr hshort)]

/-- A stored entry whose content is 600 characters long. -/
def e8row : EntryRow :=
  { id := "e8", projectId := "p", title := "long entry",
    content := String.mk (List.replicate 600 'a'),
    createdAt := "2025-01-04T00:00:00Z", tags := some [] }

/-- A store holding one entry whose content is 600 characters long. -/
def db8 : DB := { logEntries := [e8row], entryTags := [] }

/-- The entry of `db8` as `getEntry` returns it. -/
def entry8 : LogEntryOut :=
  { id := "e8", projectId := "p", title := "long entry",
    content := String.mk (List.replicate 600 'a'), summary := none,
    createdAt := "2025-01-04T00:00:00Z", tags := [], agentId := none }

set_option maxRecDepth 10000 in
/-- Witness for C8 at `db8`: the 600-character content is truncated to a
fallback of length exactly 500. -/
theorem getContext_fallback_truncation_witness :
    (getEntry db8 "p" "e8" = some entry8 ∧ entry8.summary = none ∧
        FALLBACK_MAX_LENGTH < entry8.content.length) ∧
    (fallbackOf entry8.content).length = FALLBACK_MAX_LENGTH :=
  ⟨⟨rfl, rfl, by decide⟩,
    ((getContext_fallback_truncation db8 "p" "e8" false none entry8
        rfl rfl (Or.inl rfl)).2.1 (by decide)).1⟩

/-- A fault oracle failing the tag read of entry `e1` only. -/
def fault9 : String → Bool := fun fid => fid == "e1"

/-- C9, counterexample.  `getTags` catches storage faults and returns the
empty list, so a search whose tag read for `e1` faults still returns a
success payload in which `e1` appears with an empty tag list, although the
Tag Index holds `("e1", "auth")` — refuting the claim that such a fault
does not silently yield that success response. -/
theorem getTags_fault_swallowed_at_input :
    fault9 "e1" = true ∧
    ("e1", "auth") ∈ db1.entryTags ∧
    (searchEntries db1 fault9 { projectId := "p", tags := some ["auth"] }).entries.map
        (fun e => (e.id, e.tags)) = [("e1", [])] := by decide

/-- C9, amended.  A storage fault while reading an entry's tags during
search is absorbed rather than surfaced: the search still succeeds, and on
either query path every returned entry whose tag read faulted is reported
with an empty tag list. -/
theorem search_absorbs_tag_read_fault
    (db : DB) (fault : String → Bool) (params : SearchParams) (e : ResultEntry)
    (he : e ∈ (searchEntries db fault params).entries)
    (hf : fault e.id = true) : e.tags = [] := by
  unfold searchEntries at he
  by_cases h : tagListOf params ≠ [] ∧
      searchByTags db fault params.projectId (tagListOf params) ≠ []
  · rw [if_pos h] at he
    simp only [searchByTags] at he
    obtain ⟨r, _, rfl⟩ := List.mem_map.mp he
    simp only [fullRow] at hf ⊢
    simp [getTagsModel, hf]
  · rw [if_neg h] at he
    simp only at he
    obtain ⟨r, _, rfl⟩ := List.mem_map.mp he
    simp only [projectionRow] at hf ⊢
    simp [getTagsModel, hf]

/-- Witness for the amended C9 at `db1` with a faulting tag read for `e1`:
the returned entry carries an empty tag list. -/
theorem search_absorbs_tag_read_fault_witness :
    (((searchEntries db1 fault9 { projectId := "p", tags := some ["auth"] }).entries.headD
          (projectionRow db1 fault9 e1row))
        ∈ (searchEntries db1 fault9 { projectId := "p", tags := some ["auth"] }).entries ∧
      fault9 ((searchEntries db1 fault9
          { projectId := "p", tags := some ["auth"] }).entries.headD
          (projectionRow db1 fault9 e1row)).id = true) ∧
    ((searchEntries db1 fault9 { projectId := "p", tags := some ["auth"] }).entries.headD
        (projectionRow db1 fault9 e1row)).tags = [] :=
  ⟨⟨by decide, by decide⟩,
    search_absorbs_tag_read_fault db1 fault9 { projectId := "p", tags := some ["auth"] }
      ((searchEntries db1 fault9 { projectId := "p", tags := some ["auth"] }).entries.headD
        (projectionRow db1 fault9 e1row)) (by decide) (by decide)⟩

/-- C10.  `getEntry` reports the JSON-decoded inline tags column (empty
list when NULL) and never consults the Tag Index (its result is unchanged
under any replacement of the `entry_tags` rows); search results instead
report each entry's tags through `getTags` over the Tag Index; hence the
tag sets the two read paths report for the same entry agree exactly when
the Tag Index rows for the entry match its inline column. -/
theorem getEntry_and_search_tag_sources
    (db : DB) (p id : String) (r : EntryRow)
    (hfind : db.logEntries.find? (entryPred p id) = some r) :
    (getEntry db p id).map (fun x => x.tags) = some (r.tags.getD []) ∧
    (∀ ts, getEntry { db with entryTags := ts } p id = getEntry db p id) ∧
    (∀ (fault : String → Bool) (params : SearchParams) (e : ResultEntry),
        e ∈ (searchEntries db fault params).entries →
          e.tags = getTagsModel db fault e.id) ∧
    ((∀ t, t ∈ (toLogEntry r).tags ↔ t ∈ getTagsModel db noFault r.id) ↔
      (∀ t, t ∈ r.tags.getD [] ↔ t ∈ indexTags db r.id)) := by
  refine ⟨?_, fun ts => rfl, ?_, ?_⟩
  · unfold getEntry
    rw [hfind]
    rfl
  · intro fault params e he
    unfold searchEntries at he
    by_cases h : tagListOf params ≠ [] ∧
        searchByTags db fault params.projectId (tagListOf params) ≠ []
    · rw [if_pos h] at he
      simp only [searchByTags] at he
      obtain ⟨a, _, rfl⟩ := List.mem_map.mp he
      rfl
    · rw [if_neg h] at he
      simp only at he
      obtain ⟨a, _, rfl⟩ := List.mem_map.mp he
      rfl
  · have hmem : ∀ t, t ∈ getTagsModel db noFault r.id ↔ t ∈ indexTags db r.id := by
      intro t
      rw [show getTagsModel db noFault r.id = sortAsc (indexTags db r.id) from rfl]
      exact mem_sortAsc t (indexTags db r.id)
    constructor
    · intro h t
      rw [← hmem t]
      exact h t
    · intro h t
      rw [hmem t]
      exact h t

/-- Witness for C10 at `db1`. -/
theorem getEntry_and_search_tag_sources_witness :
    (db1.logEntries.find? (entryPred "p" "e1") = some e1row) ∧
    ((getEntry db1 "p" "e1").map (fun x => x.tags) = some (e1row.tags.getD []) ∧
      (∀ ts, getEntry { db1 with entryTags := ts } "p" "e1" = getEntry db1 "p" "e1")) :=
  ⟨rfl,
    ⟨(getEntry_and_search_tag_sources db1 "p" "e1" e1row rfl).1,
      (getEntry_and_search_tag_sources db1 "p" "e1" e1row rfl).2.1⟩⟩

end ContextMcp
